import Mathlib

/-!
Shallow embedding of `src/lib/libkern.c` (ios-kern-utils).

The file models the five entry points of the C module — `get_kernel_task`,
`get_kernel_base`, `read_kernel`, `write_kernel`, `find_bytes_kern` — as pure
Lean functions.  External collaborators (`task_for_pid`,
`host_get_special_port`, `vm_region_recurse_64`, `vm_read_overwrite`,
`vm_write`, `memmem`'s haystack, the architecture constants from `arch.h`)
are modelled as explicit environment records, and the two `static` caches as
explicit state records threaded through the functions.  Unbounded C loops are
rendered with a fuel parameter; `none` marks fuel exhaustion and every
theorem supplies enough fuel.  Machine integers are `Nat`; the only place
where wraparound matters is the `(vm_size_t)(-1)` sentinel of
`read_kernel`/`write_kernel`, rendered as `2 ^ 64 - 1` (LP64 `vm_size_t`).
-/

namespace Libkern

/-- `KERN_SUCCESS` from `mach/kern_return.h`. -/
def KERN_SUCCESS : Nat := 0

/-- `KERN_FAILURE` from `mach/kern_return.h` (value 5). -/
def KERN_FAILURE : Nat := 5

/-- `MACH_PORT_NULL` from `mach/port.h`. -/
def MACH_PORT_NULL : Nat := 0

/-- `MACH_PORT_DEAD` from `mach/port.h` (`~0` as a 32-bit port name). -/
def MACH_PORT_DEAD : Nat := 0xFFFFFFFF

/-- `MACH_PORT_VALID(name)`: the port name is neither `MACH_PORT_NULL` nor
`MACH_PORT_DEAD`. -/
def MACH_PORT_VALID (port : Nat) : Bool :=
  port != MACH_PORT_NULL && port != MACH_PORT_DEAD

/-- `VM_PROT_READ`. -/
def VM_PROT_READ : Nat := 1

/-- `VM_PROT_WRITE`. -/
def VM_PROT_WRITE : Nat := 2

/-- `VM_PROT_EXECUTE`. -/
def VM_PROT_EXECUTE : Nat := 4

/-- `MAX_CHUNK_SIZE` from `libkern.c`. -/
def MAX_CHUNK_SIZE : Nat := 0xFFF

/-- The `VERIFY_PORT(port, ret)` macro, `libkern.c` lines 31-58, as the pure
reconciliation function it performs on `ret` (the `DEBUG` logging is output
only).  A valid port forces `ret` to `KERN_SUCCESS`; an invalid port with a
success status gets `ret` corrected to `KERN_FAILURE`; an invalid port with a
failure status keeps its status. -/
def VERIFY_PORT (port ret : Nat) : Nat :=
  if MACH_PORT_VALID port then
    if ret == KERN_SUCCESS then ret else KERN_SUCCESS
  else
    if ret == KERN_SUCCESS then KERN_FAILURE else ret

/-- Environment for `get_kernel_task`: the port and status code produced by
`task_for_pid(mach_task_self(), 0, ...)` and by
`host_get_special_port(mach_host_self(), HOST_LOCAL_NODE, 4, ...)`. -/
structure KernEnv where
  tfp_port : Nat
  tfp_ret : Nat
  hgsp_port : Nat
  hgsp_ret : Nat
  deriving DecidableEq

/-- The two `static` variables of `get_kernel_task`
(`kernel_task`, `initialized`). -/
structure TaskCache where
  kernel_task : Nat
  initialized : Bool
  deriving DecidableEq

/-- One call's observable outcome: the returned `kern_return_t`, the value
written through `*task` (`none` when the failure path returns without writing
it), and the number of acquisition syscalls issued during the call. -/
structure TaskResult where
  ret : Nat
  task : Option Nat
  calls : Nat
  deriving DecidableEq

/-- `get_kernel_task`, `libkern.c` lines 60-94.  Returns the updated cache
state together with the call's outcome. -/
def get_kernel_task (env : KernEnv) (st : TaskCache) : TaskCache × TaskResult :=
  if st.initialized then
    (st, ⟨KERN_SUCCESS, some st.kernel_task, 0⟩)
  else
    -- kernel_task = MACH_PORT_NULL; ret = task_for_pid(mach_task_self(), 0, &kernel_task);
    let kt1 := env.tfp_port
    let r1 := VERIFY_PORT kt1 env.tfp_ret
    if r1 != KERN_SUCCESS then
      -- kernel_task = MACH_PORT_NULL; ret = host_get_special_port(..., 4, &kernel_task);
      let kt2 := env.hgsp_port
      let r2 := VERIFY_PORT kt2 env.hgsp_ret
      if r2 != KERN_SUCCESS then
        (⟨kt2, false⟩, ⟨r2, none, 2⟩)
      else
        (⟨kt2, true⟩, ⟨KERN_SUCCESS, some kt2, 2⟩)
    else
      (⟨kt1, true⟩, ⟨KERN_SUCCESS, some kt1, 1⟩)

/-- C1: `VERIFY_PORT` reconciles the handle-validity/status pair as the
four-case decision table: valid+success → success, valid+failure → success
(status overwritten), invalid+success → corrected to `KERN_FAILURE`,
invalid+failure → the failure status unchanged. -/
theorem C1_verify_port_decision_table (port ret : Nat) :
    (MACH_PORT_VALID port = true → ret = KERN_SUCCESS →
      VERIFY_PORT port ret = KERN_SUCCESS) ∧
    (MACH_PORT_VALID port = true → ret ≠ KERN_SUCCESS →
      VERIFY_PORT port ret = KERN_SUCCESS) ∧
    (MACH_PORT_VALID port = false → ret = KERN_SUCCESS →
      VERIFY_PORT port ret = KERN_FAILURE) ∧
    (MACH_PORT_VALID port = false → ret ≠ KERN_SUCCESS →
      VERIFY_PORT port ret = ret) := by
  refine ⟨?_, ?_, ?_, ?_⟩ <;> intro hv hr <;>
    simp [VERIFY_PORT, hv, hr]

/-- Witness for C1 at concrete inputs: port `0x103` (valid) with status
`KERN_FAILURE`, and port `0` (invalid) with status `KERN_SUCCESS`. -/
theorem C1_verify_port_decision_table_witness :
    VERIFY_PORT 0x103 KERN_FAILURE = KERN_SUCCESS ∧
    VERIFY_PORT 0 KERN_SUCCESS = KERN_FAILURE :=
  ⟨(C1_verify_port_decision_table 0x103 KERN_FAILURE).2.1 (by decide) (by decide),
   (C1_verify_port_decision_table 0 KERN_SUCCESS).2.2.1 (by decide) (by decide)⟩

/-- The fields of `mach_hdr_t` that `get_kernel_base` inspects
(`magic`, `cputype`, `filetype`). -/
structure MachHdr where
  magic : Nat
  cputype : Nat
  filetype : Nat
  deriving DecidableEq

/-- Environment for `get_kernel_base`: the architecture constants imported
from `arch.h` and the two kernel collaborators.  `regions a` models
`vm_region_recurse_64` queried at address `a`: `none` when no further region
exists, otherwise the region's start address (written back through `&addr`),
its size, and its protection bits.  `readHdr a` models
`vm_read_overwrite(task, a, sizeof(mach_hdr_t), ...)`: `none` on failure,
otherwise the header read from `a`. -/
structure BaseEnv where
  IMAGE_OFFSET : Nat
  MACH_HEADER_MAGIC : Nat
  MACH_TYPE : Nat
  MH_EXECUTE : Nat
  regions : Nat → Option (Nat × Nat × Nat)
  readHdr : Nat → Option MachHdr

/-- The inner `while(true)` loop of `get_kernel_base`, `libkern.c` lines
144-215: header-offset disambiguation starting from candidate region address
`addr`.  Returns `none` on fuel exhaustion, otherwise
`some (result, iterations, headerReads)` where `result` is `some base` when
an offset was accepted (`addr += IMAGE_OFFSET` / `addr += 2*IMAGE_OFFSET`
followed by `break`) and `none` when the loop executed a `return 0`;
`iterations` counts executions of the loop body and `headerReads` the
`vm_read_overwrite` header reads issued. -/
def disambiguate (env : BaseEnv) : Nat → Nat → Option (Option Nat × Nat × Nat)
  | 0, _ => none
  | fuel + 1, addr =>
    match env.readHdr (addr + env.IMAGE_OFFSET) with
    | none => some (none, 1, 1)
    | some hdr1 =>
      match env.readHdr (addr + 2 * env.IMAGE_OFFSET) with
      | none =>
        -- if the second address cannot be read, the first one might still be valid
        if hdr1.magic == env.MACH_HEADER_MAGIC then
          some (some (addr + env.IMAGE_OFFSET), 1, 2)
        else
          some (none, 1, 2)
      | some hdr2 =>
        let b1 := hdr1.magic == env.MACH_HEADER_MAGIC
        let b2 := hdr2.magic == env.MACH_HEADER_MAGIC
        if b1 && b2 then
          -- dig a little deeper: file type and target CPU
          let c1 := hdr1.cputype == env.MACH_TYPE && hdr1.filetype == env.MH_EXECUTE
          let c2 := hdr2.cputype == env.MACH_TYPE && hdr2.filetype == env.MH_EXECUTE
          if c1 && c2 then
            some (none, 1, 2)
          else if c1 then
            some (some (addr + env.IMAGE_OFFSET), 1, 2)
          else if c2 then
            some (some (addr + 2 * env.IMAGE_OFFSET), 1, 2)
          else
            match disambiguate env fuel (addr + 0x100000) with
            | none => none
            | some (r, k, c) => some (r, k + 1, c + 2)
        else if b1 then
          some (some (addr + env.IMAGE_OFFSET), 1, 2)
        else if b2 then
          some (some (addr + 2 * env.IMAGE_OFFSET), 1, 2)
        else
          -- neither magic matches: go 0x100000 further and continue
          match disambiguate env fuel (addr + 0x100000) with
          | none => none
          | some (r, k, c) => some (r, k + 1, c + 2)

/-- The outer region loop of `get_kernel_base`, `libkern.c` lines 121-221:
`for(addr = 0; 1; addr += size)` querying `vm_region_recurse_64` at `a`,
looking for the first region larger than 1 GiB whose protection bits are all
absent, then running the header disambiguation at its start.  Returns `none`
on fuel exhaustion, otherwise `some (result, collaboratorCalls)`. -/
def scan_regions (env : BaseEnv) : Nat → Nat → Nat → Option (Option Nat × Nat)
  | 0, _, _ => none
  | rf + 1, hf, a =>
    match env.regions a with
    | none => some (none, 1)
    | some (rstart, rsize, prot) =>
      if rsize > 1024 * 1024 * 1024 &&
          prot &&& (VM_PROT_READ ||| VM_PROT_WRITE ||| VM_PROT_EXECUTE) == 0 then
        match disambiguate env hf rstart with
        | none => none
        | some (r, _, c) => some (r, 1 + c)
      else
        match scan_regions env rf hf (rstart + rsize) with
        | none => none
        | some (r, c) => some (r, c + 1)

/-- The two `static` variables of `get_kernel_base` (`addr`, `initialized`).
On the not-found paths the C code returns 0 without setting `initialized`,
so only the `initialized = true` case makes `addr` meaningful. -/
structure BaseCache where
  addr : Nat
  initialized : Bool
  deriving DecidableEq

/-- `get_kernel_base`, `libkern.c` lines 96-225.  `rf`/`hf` are fuel for the
region loop and the header-disambiguation loop.  Returns `none` on fuel
exhaustion, otherwise `some (taskState, baseState, value, collaboratorCalls)`
where `value` is the returned address (0 on every not-found path) and
`collaboratorCalls` counts acquisition syscalls, region enumerations and
header reads issued by this call. -/
def get_kernel_base (kenv : KernEnv) (env : BaseEnv) (rf hf : Nat)
    (tst : TaskCache) (bst : BaseCache) :
    Option (TaskCache × BaseCache × Nat × Nat) :=
  if bst.initialized then
    some (tst, bst, bst.addr, 0)
  else
    let (tst1, tr) := get_kernel_task kenv tst
    if tr.ret != KERN_SUCCESS then
      some (tst1, bst, 0, tr.calls)
    else
      match scan_regions env rf hf 0 with
      | none => none
      | some (none, c) => some (tst1, bst, 0, tr.calls + c)
      | some (some a, c) => some (tst1, ⟨a, true⟩, a, tr.calls + c)

/-- C2: when both header reads succeed and only the second magic matches,
`get_kernel_base` accepts offset `2 * IMAGE_OFFSET`: for a matched region at
scan offset `X` it returns `X + 2 * IMAGE_OFFSET` and caches it. -/
theorem C2_locator_second_offset (kenv : KernEnv) (env : BaseEnv)
    (tst : TaskCache) (bst : BaseCache) (rf hf X sz prot : Nat)
    (h1 h2 : MachHdr)
    (hbst : bst.initialized = false)
    (htask : (get_kernel_task kenv tst).2.ret = KERN_SUCCESS)
    (hreg : env.regions 0 = some (X, sz, prot))
    (hsz : sz > 1024 * 1024 * 1024)
    (hprot : prot &&& (VM_PROT_READ ||| VM_PROT_WRITE ||| VM_PROT_EXECUTE) = 0)
    (hr1 : env.readHdr (X + env.IMAGE_OFFSET) = some h1)
    (hm1 : h1.magic ≠ env.MACH_HEADER_MAGIC)
    (hr2 : env.readHdr (X + 2 * env.IMAGE_OFFSET) = some h2)
    (hm2 : h2.magic = env.MACH_HEADER_MAGIC) :
    ∃ tst1 c, get_kernel_base kenv env (rf + 1) (hf + 1) tst bst =
      some (tst1, ⟨X + 2 * env.IMAGE_OFFSET, true⟩, X + 2 * env.IMAGE_OFFSET, c) := by
  rcases hp : get_kernel_task kenv tst with ⟨tst1, tr⟩
  rw [hp] at htask
  replace htask : tr.ret = KERN_SUCCESS := htask
  refine ⟨tst1, tr.calls + (1 + 2), ?_⟩
  simp only [get_kernel_base, hbst, Bool.false_eq_true, if_false, hp, htask,
    bne_self_eq_false, Bool.false_eq_true, if_false,
    scan_regions, hreg, hsz, hprot, disambiguate, hr1, hr2]
  simp [hm2, beq_eq_false_iff_ne, hm1]

/-- C3: when the headers at both candidate offsets have a matching magic and
both also pass the CPU-type/file-type check, `get_kernel_base` returns 0
(ambiguous) and does not cache any base address. -/
theorem C3_locator_ambiguous_returns_zero (kenv : KernEnv) (env : BaseEnv)
    (tst : TaskCache) (bst : BaseCache) (rf hf X sz prot : Nat)
    (h1 h2 : MachHdr)
    (hbst : bst.initialized = false)
    (htask : (get_kernel_task kenv tst).2.ret = KERN_SUCCESS)
    (hreg : env.regions 0 = some (X, sz, prot))
    (hsz : sz > 1024 * 1024 * 1024)
    (hprot : prot &&& (VM_PROT_READ ||| VM_PROT_WRITE ||| VM_PROT_EXECUTE) = 0)
    (hr1 : env.readHdr (X + env.IMAGE_OFFSET) = some h1)
    (hr2 : env.readHdr (X + 2 * env.IMAGE_OFFSET) = some h2)
    (hm1 : h1.magic = env.MACH_HEADER_MAGIC)
    (hm2 : h2.magic = env.MACH_HEADER_MAGIC)
    (hc1 : h1.cputype = env.MACH_TYPE) (hf1 : h1.filetype = env.MH_EXECUTE)
    (hc2 : h2.cputype = env.MACH_TYPE) (hf2 : h2.filetype = env.MH_EXECUTE) :
    ∃ tst1 c, get_kernel_base kenv env (rf + 1) (hf + 1) tst bst =
      some (tst1, bst, 0, c) := by
  rcases hp : get_kernel_task kenv tst with ⟨tst1, tr⟩
  rw [hp] at htask
  replace htask : tr.ret = KERN_SUCCESS := htask
  refine ⟨tst1, tr.calls + (1 + 2), ?_⟩
  simp only [get_kernel_base, hbst, Bool.false_eq_true, if_false, hp, htask,
    bne_self_eq_false, if_false,
    scan_regions, hreg, hsz, hprot, disambiguate, hr1, hr2]
  simp [hm1, hm2, hc1, hf1, hc2, hf2]

/-- C4: when both header reads succeed and neither magic matches,
`disambiguate` (the inner loop of `get_kernel_base`) advances the candidate
address by the fixed stride `0x100000` and re-runs at the new address instead
of returning: its outcome is the outcome at `X + 0x100000` with one more
iteration and two more header reads; in particular, if the scan at the new
address accepts a base in a single iteration, the scan from `X` accepts the
same base after exactly two iterations (one retry). -/
theorem C4_locator_stride_retry (env : BaseEnv) (X fuel : Nat) (h1 h2 : MachHdr)
    (hr1 : env.readHdr (X + env.IMAGE_OFFSET) = some h1)
    (hm1 : h1.magic ≠ env.MACH_HEADER_MAGIC)
    (hr2 : env.readHdr (X + 2 * env.IMAGE_OFFSET) = some h2)
    (hm2 : h2.magic ≠ env.MACH_HEADER_MAGIC) :
    (∀ r k c, disambiguate env fuel (X + 0x100000) = some (r, k, c) →
      disambiguate env (fuel + 1) X = some (r, k + 1, c + 2)) ∧
    (∀ a c, disambiguate env fuel (X + 0x100000) = some (some a, 1, c) →
      disambiguate env (fuel + 1) X = some (some a, 2, c + 2)) := by
  have step : ∀ r k c, disambiguate env fuel (X + 0x100000) = some (r, k, c) →
      disambiguate env (fuel + 1) X = some (r, k + 1, c + 2) := by
    intro r k c h
    simp only [disambiguate, hr1, hr2]
    simp [beq_eq_false_iff_ne, hm1, hm2, h]
  exact ⟨step, fun a c h => step (some a) 1 c h⟩

/-- A concrete acquisition environment in which `task_for_pid(0)` returns a
valid port with a success status. -/
def kenvOk : KernEnv := ⟨0x103, KERN_SUCCESS, 0, KERN_SUCCESS⟩

/-- A concrete acquisition environment in which both strategies return the
null port with `KERN_FAILURE`. -/
def kenvFail : KernEnv := ⟨0, KERN_FAILURE, 0, KERN_FAILURE⟩

/-- Concrete locator environment: one matching region at `0x10000000` of size
2 GiB with no protection bits; the header at the first candidate offset has a
wrong magic, the one at the second candidate offset matches. -/
def envSecondOffset : BaseEnv where
  IMAGE_OFFSET := 0x1000
  MACH_HEADER_MAGIC := 0xfeedfacf
  MACH_TYPE := 0x0100000c
  MH_EXECUTE := 2
  regions := fun a => if a = 0 then some (0x10000000, 0x80000000, 0) else none
  readHdr := fun a =>
    if a = 0x10001000 then some ⟨0xdeadbeef, 0, 0⟩
    else if a = 0x10002000 then some ⟨0xfeedfacf, 0x0100000c, 2⟩
    else none

/-- Concrete locator environment: one matching region at `0x10000000`, and
fully valid-looking headers (magic, CPU type, file type) at both candidate
offsets. -/
def envAmbiguous : BaseEnv where
  IMAGE_OFFSET := 0x1000
  MACH_HEADER_MAGIC := 0xfeedfacf
  MACH_TYPE := 0x0100000c
  MH_EXECUTE := 2
  regions := fun a => if a = 0 then some (0x10000000, 0x80000000, 0) else none
  readHdr := fun a =>
    if a = 0x10001000 then some ⟨0xfeedfacf, 0x0100000c, 2⟩
    else if a = 0x10002000 then some ⟨0xfeedfacf, 0x0100000c, 2⟩
    else none

/-- Concrete locator environment: the headers at both candidate offsets of
`0x10000000` have wrong magics, while the true header sits one `0x100000`
stride further in, at the first candidate offset. -/
def envStride : BaseEnv where
  IMAGE_OFFSET := 0x1000
  MACH_HEADER_MAGIC := 0xfeedfacf
  MACH_TYPE := 0x0100000c
  MH_EXECUTE := 2
  regions := fun a => if a = 0 then some (0x10000000, 0x80000000, 0) else none
  readHdr := fun a =>
    if a = 0x10001000 then some ⟨0xdeadbeef, 0, 0⟩
    else if a = 0x10002000 then some ⟨0xdeadbeef, 0, 0⟩
    else if a = 0x10101000 then some ⟨0xfeedfacf, 0x0100000c, 2⟩
    else if a = 0x10102000 then some ⟨0xdeadbeef, 0, 0⟩
    else none

/-- Witness for C2: in `envSecondOffset` the locator returns
`0x10000000 + 2 * 0x1000` and caches it. -/
theorem C2_locator_second_offset_witness :
    ∃ tst1 c, get_kernel_base kenvOk envSecondOffset 1 1 ⟨0, false⟩ ⟨0, false⟩ =
      some (tst1, ⟨0x10000000 + 2 * envSecondOffset.IMAGE_OFFSET, true⟩,
        0x10000000 + 2 * envSecondOffset.IMAGE_OFFSET, c) :=
  C2_locator_second_offset kenvOk envSecondOffset ⟨0, false⟩ ⟨0, false⟩ 0 0
    0x10000000 0x80000000 0 ⟨0xdeadbeef, 0, 0⟩ ⟨0xfeedfacf, 0x0100000c, 2⟩
    rfl (by decide) (by decide) (by decide) (by decide) (by decide) (by decide)
    (by decide) (by decide)

/-- Witness for C3: in `envAmbiguous` the locator returns 0 and leaves the
cache unset. -/
theorem C3_locator_ambiguous_returns_zero_witness :
    ∃ tst1 c, get_kernel_base kenvOk envAmbiguous 1 1 ⟨0, false⟩ ⟨0, false⟩ =
      some (tst1, ⟨0, false⟩, 0, c) :=
  C3_locator_ambiguous_returns_zero kenvOk envAmbiguous ⟨0, false⟩ ⟨0, false⟩ 0 0
    0x10000000 0x80000000 0 ⟨0xfeedfacf, 0x0100000c, 2⟩ ⟨0xfeedfacf, 0x0100000c, 2⟩
    rfl (by decide) (by decide) (by decide) (by decide) (by decide) (by decide)
    (by decide) (by decide) (by decide) (by decide) (by decide) (by decide)

/-- Witness for C4: in `envStride` the disambiguation at `0x10000000` misses
at both offsets, advances by `0x100000`, and accepts `0x10101000` after
exactly two loop iterations (one retry). -/
theorem C4_locator_stride_retry_witness :
    disambiguate envStride 2 0x10000000 = some (some 0x10101000, 2, 2 + 2) :=
  (C4_locator_stride_retry envStride 0x10000000 1 ⟨0xdeadbeef, 0, 0⟩
      ⟨0xdeadbeef, 0, 0⟩ (by decide) (by decide) (by decide) (by decide)).2
    0x10101000 2 (by decide)


/-- One `vm_read_overwrite` chunk call issued by `read_kernel`: the requested
size (the clamped `size` before the call), the returned `kern_return_t`, and
the transferred byte count written back through `&size`. -/
structure ChunkCall where
  req : Nat
  ret : Nat
  actual : Nat
  deriving DecidableEq

/-- One `vm_write` chunk call issued by `write_kernel`: the requested size
and the returned `kern_return_t` (`vm_write` reports no transferred count). -/
structure WriteCall where
  req : Nat
  ret : Nat
  deriving DecidableEq

/-- The per-iteration clamp
`size = remainder > MAX_CHUNK_SIZE ? MAX_CHUNK_SIZE : remainder` shared by
both chunk loops. -/
def clamp (remainder : Nat) : Nat :=
  if remainder > MAX_CHUNK_SIZE then MAX_CHUNK_SIZE else remainder

/-- The chunk loop of `read_kernel`, `libkern.c` lines 243-253:
`for(end = addr + size; addr < end; remainder -= size)` with the clamped
chunk size, breaking when a call fails or transfers zero bytes.  The
collaborator `chunk i a s` gives the `kern_return_t` and transferred count of
the `i`-th `vm_read_overwrite` call at address `a` with requested size `s`.
`none` on fuel exhaustion, otherwise `some (bytes_read, trace)` where
`bytes_read` accumulates the transferred counts of the successful calls and
`trace` records every issued call in order. -/
def read_loop (chunk : Nat → Nat → Nat → Nat × Nat) :
    Nat → Nat → Nat → Nat → Nat → Option (Nat × List ChunkCall)
  | 0, _, _, _, _ => none
  | fuel + 1, i, addr, end_, remainder =>
    if addr < end_ then
      match chunk i addr (clamp remainder) with
      | (ret, n) =>
        if ret != KERN_SUCCESS || n == 0 then
          some (0, [⟨clamp remainder, ret, n⟩])
        else
          match read_loop chunk fuel (i + 1) (addr + n) end_ (remainder - n) with
          | none => none
          | some (b, t) => some (n + b, ⟨clamp remainder, ret, n⟩ :: t)
    else
      some (0, [])

/-- The chunk loop of `write_kernel`, `libkern.c` lines 272-282: same shape
as `read_loop`, but `vm_write` (modelled by `chunk i a s`) returns only a
status, the loop breaks only on failure, and on success
`bytes_written`/`addr` advance by the requested chunk size. -/
def write_loop (chunk : Nat → Nat → Nat → Nat) :
    Nat → Nat → Nat → Nat → Nat → Option (Nat × List WriteCall)
  | 0, _, _, _, _ => none
  | fuel + 1, i, addr, end_, remainder =>
    if addr < end_ then
      if chunk i addr (clamp remainder) != KERN_SUCCESS then
        some (0, [⟨clamp remainder, chunk i addr (clamp remainder)⟩])
      else
        match write_loop chunk fuel (i + 1) (addr + clamp remainder) end_
            (remainder - clamp remainder) with
        | none => none
        | some (b, t) =>
          some (clamp remainder + b,
            ⟨clamp remainder, chunk i addr (clamp remainder)⟩ :: t)
    else
      some (0, [])

/-- `read_kernel`, `libkern.c` lines 227-256.  On acquisition failure it
returns `(vm_size_t)(-1)`, i.e. `2 ^ 64 - 1` on LP64, with an empty trace;
otherwise the loop result. -/
def read_kernel (kenv : KernEnv) (chunk : Nat → Nat → Nat → Nat × Nat)
    (tst : TaskCache) (fuel addr size : Nat) :
    TaskCache × Option (Nat × List ChunkCall) :=
  let (tst1, tr) := get_kernel_task kenv tst
  if tr.ret != KERN_SUCCESS then
    (tst1, some (2 ^ 64 - 1, []))
  else
    (tst1, read_loop chunk fuel 0 addr (addr + size) size)

/-- `write_kernel`, `libkern.c` lines 258-285.  Same shape as `read_kernel`
with the `vm_write` loop. -/
def write_kernel (kenv : KernEnv) (chunk : Nat → Nat → Nat → Nat)
    (tst : TaskCache) (fuel addr size : Nat) :
    TaskCache × Option (Nat × List WriteCall) :=
  let (tst1, tr) := get_kernel_task kenv tst
  if tr.ret != KERN_SUCCESS then
    (tst1, some (2 ^ 64 - 1, []))
  else
    (tst1, write_loop chunk fuel 0 addr (addr + size) size)

/-- `⌈L / U⌉` on naturals, as `(L + U - 1) / U`. -/
def ceil_div (L U : Nat) : Nat := (L + U - 1) / U

lemma ceil_div_eq_one (R U : Nat) (h1 : 0 < R) (h2 : R ≤ U) :
    ceil_div R U = 1 := by
  unfold ceil_div
  apply Nat.div_eq_of_lt_le <;> omega

lemma ceil_div_sub (R U : Nat) (hU : 0 < U) (h : U < R) :
    ceil_div R U = ceil_div (R - U) U + 1 := by
  unfold ceil_div
  have e : R + U - 1 = (R - U + U - 1) + U := by omega
  rw [e, Nat.add_div_right _ hU]

lemma clamp_pos (R : Nat) (h : 0 < R) : 0 < clamp R := by
  unfold clamp MAX_CHUNK_SIZE; split <;> omega

lemma clamp_le (R : Nat) : clamp R ≤ R ∧ clamp R ≤ MAX_CHUNK_SIZE := by
  unfold clamp; split <;> omega

lemma ceil_div_clamp (R : Nat) (h : 0 < R) :
    ceil_div R MAX_CHUNK_SIZE = ceil_div (R - clamp R) MAX_CHUNK_SIZE + 1 := by
  unfold clamp
  split
  · exact ceil_div_sub R MAX_CHUNK_SIZE (by decide) (by assumption)
  · rw [Nat.sub_self]
    have h0 : ceil_div 0 MAX_CHUNK_SIZE = 0 := by decide
    rw [h0, ceil_div_eq_one R MAX_CHUNK_SIZE h (by omega)]

/-- When every `vm_read_overwrite` chunk succeeds and transfers the full
requested size, the read loop over a range of length `R` returns `R` bytes
via `⌈R / MAX_CHUNK_SIZE⌉` chunk calls, each requesting at most
`MAX_CHUNK_SIZE` bytes, and the returned count is the sum of the per-chunk
transferred counts. -/
lemma read_loop_all_full (chunk : Nat → Nat → Nat → Nat × Nat)
    (h : ∀ i a s, chunk i a s = (KERN_SUCCESS, s)) :
    ∀ fuel R i a, R < fuel →
      ∃ tr, read_loop chunk fuel i a (a + R) R = some (R, tr) ∧
        tr.length = ceil_div R MAX_CHUNK_SIZE ∧
        (∀ c ∈ tr, c.req ≤ MAX_CHUNK_SIZE ∧ c.ret = KERN_SUCCESS ∧
          c.actual = c.req) ∧
        (tr.map ChunkCall.actual).sum = R := by
  intro fuel
  induction fuel with
  | zero => intro R i a hR; exact absurd hR (by omega)
  | succ n ih =>
    intro R i a hR
    rcases Nat.eq_zero_or_pos R with h0 | h0
    · subst h0
      refine ⟨[], by simp [read_loop], by decide, by simp, by simp⟩
    · have hlt : a < a + R := by omega
      have hsz1 : 0 < clamp R := clamp_pos R h0
      have hszR : clamp R ≤ R := (clamp_le R).1
      obtain ⟨t, ht, hlen, hall, hsum⟩ := ih (R - clamp R) (i + 1) (a + clamp R)
        (by omega)
      have hrec : a + clamp R + (R - clamp R) = a + R := by omega
      rw [hrec] at ht
      have hcond : ((KERN_SUCCESS != KERN_SUCCESS) || (clamp R == 0)) = false := by
        simp only [bne_self_eq_false, Bool.false_or, beq_eq_false_iff_ne]
        omega
      refine ⟨⟨clamp R, KERN_SUCCESS, clamp R⟩ :: t, ?_, ?_, ?_, ?_⟩
      · simp only [read_loop, if_pos hlt, h i a (clamp R), hcond,
          Bool.false_eq_true, if_false, ht]
        have e : clamp R + (R - clamp R) = R := by omega
        rw [e]
      · simp only [List.length_cons, hlen]
        rw [ceil_div_clamp R h0]
      · intro c hc
        rcases List.mem_cons.mp hc with hc | hc
        · subst hc; exact ⟨(clamp_le R).2, rfl, rfl⟩
        · exact hall c hc
      · simp only [List.map_cons, List.sum_cons, hsum]
        omega

/-- `write_loop` analogue of `read_loop_all_full`: when every `vm_write`
chunk succeeds, the loop writes `R` bytes via `⌈R / MAX_CHUNK_SIZE⌉` calls of
at most `MAX_CHUNK_SIZE` bytes each, the total being the sum of the per-chunk
sizes. -/
lemma write_loop_all_full (chunk : Nat → Nat → Nat → Nat)
    (h : ∀ i a s, chunk i a s = KERN_SUCCESS) :
    ∀ fuel R i a, R < fuel →
      ∃ tr, write_loop chunk fuel i a (a + R) R = some (R, tr) ∧
        tr.length = ceil_div R MAX_CHUNK_SIZE ∧
        (∀ c ∈ tr, c.req ≤ MAX_CHUNK_SIZE ∧ c.ret = KERN_SUCCESS) ∧
        (tr.map WriteCall.req).sum = R := by
  intro fuel
  induction fuel with
  | zero => intro R i a hR; exact absurd hR (by omega)
  | succ n ih =>
    intro R i a hR
    rcases Nat.eq_zero_or_pos R with h0 | h0
    · subst h0
      refine ⟨[], by simp [write_loop], by decide, by simp, by simp⟩
    · have hlt : a < a + R := by omega
      have hsz1 : 0 < clamp R := clamp_pos R h0
      have hszR : clamp R ≤ R := (clamp_le R).1
      obtain ⟨t, ht, hlen, hall, hsum⟩ := ih (R - clamp R) (i + 1) (a + clamp R)
        (by omega)
      have hrec : a + clamp R + (R - clamp R) = a + R := by omega
      rw [hrec] at ht
      refine ⟨⟨clamp R, KERN_SUCCESS⟩ :: t, ?_, ?_, ?_, ?_⟩
      · simp only [write_loop, if_pos hlt, h i a (clamp R), bne_self_eq_false,
          Bool.false_eq_true, if_false, ht]
        have e : clamp R + (R - clamp R) = R := by omega
        rw [e]
      · simp only [List.length_cons, hlen]
        rw [ceil_div_clamp R h0]
      · intro c hc
        rcases List.mem_cons.mp hc with hc | hc
        · subst hc; exact ⟨(clamp_le R).2, rfl⟩
        · exact hall c hc
      · simp only [List.map_cons, List.sum_cons, hsum]
        omega

/-- C5: with a cached handle and every underlying transfer succeeding in
full, `read_kernel` and `write_kernel` split a request of length `L` into
exactly `⌈L / MAX_CHUNK_SIZE⌉` sequential chunk calls, each requesting at
most `MAX_CHUNK_SIZE = 0xFFF` bytes, and return the sum of the per-chunk
transferred counts, which equals `L`. -/
theorem C5_chunking (kenv : KernEnv) (rchunk : Nat → Nat → Nat → Nat × Nat)
    (wchunk : Nat → Nat → Nat → Nat) (tst : TaskCache) (addr L : Nat)
    (hinit : tst.initialized = true)
    (hr : ∀ i a s, rchunk i a s = (KERN_SUCCESS, s))
    (hw : ∀ i a s, wchunk i a s = KERN_SUCCESS) :
    (∃ tr, read_kernel kenv rchunk tst (L + 1) addr L = (tst, some (L, tr)) ∧
      tr.length = ceil_div L MAX_CHUNK_SIZE ∧
      (∀ c ∈ tr, c.req ≤ MAX_CHUNK_SIZE) ∧
      (tr.map ChunkCall.actual).sum = L) ∧
    (∃ tw, write_kernel kenv wchunk tst (L + 1) addr L = (tst, some (L, tw)) ∧
      tw.length = ceil_div L MAX_CHUNK_SIZE ∧
      (∀ c ∈ tw, c.req ≤ MAX_CHUNK_SIZE) ∧
      (tw.map WriteCall.req).sum = L) := by
  have hts : get_kernel_task kenv tst =
      (tst, ⟨KERN_SUCCESS, some tst.kernel_task, 0⟩) := by
    simp [get_kernel_task, hinit]
  constructor
  · obtain ⟨tr, ht, hlen, hall, hsum⟩ :=
      read_loop_all_full rchunk hr (L + 1) L 0 addr (by omega)
    exact ⟨tr, by simp [read_kernel, hts, ht], hlen,
      fun c hc => (hall c hc).1, hsum⟩
  · obtain ⟨tw, ht, hlen, hall, hsum⟩ :=
      write_loop_all_full wchunk hw (L + 1) L 0 addr (by omega)
    exact ⟨tw, by simp [write_kernel, hts, ht], hlen,
      fun c hc => (hall c hc).1, hsum⟩

/-- A `vm_read_overwrite` model where every chunk succeeds in full. -/
def rchunkFull : Nat → Nat → Nat → Nat × Nat := fun _ _ s => (KERN_SUCCESS, s)

/-- A `vm_write` model where every chunk succeeds. -/
def wchunkFull : Nat → Nat → Nat → Nat := fun _ _ _ => KERN_SUCCESS

/-- A task cache already holding a valid kernel port. -/
def tstOk : TaskCache := ⟨0x103, true⟩

/-- Witness for C5 at `L = 0x2000`: three chunk calls
(`⌈8192 / 4095⌉ = 3`) moving 8192 bytes. -/
theorem C5_chunking_witness :
    (∃ tr, read_kernel kenvOk rchunkFull tstOk (0x2000 + 1) 0x5000 0x2000 =
        (tstOk, some (0x2000, tr)) ∧
      tr.length = ceil_div 0x2000 MAX_CHUNK_SIZE ∧
      (∀ c ∈ tr, c.req ≤ MAX_CHUNK_SIZE) ∧
      (tr.map ChunkCall.actual).sum = 0x2000) ∧
    (∃ tw, write_kernel kenvOk wchunkFull tstOk (0x2000 + 1) 0x5000 0x2000 =
        (tstOk, some (0x2000, tw)) ∧
      tw.length = ceil_div 0x2000 MAX_CHUNK_SIZE ∧
      (∀ c ∈ tw, c.req ≤ MAX_CHUNK_SIZE) ∧
      (tw.map WriteCall.req).sum = 0x2000) :=
  C5_chunking kenvOk rchunkFull wchunkFull tstOk 0x5000 0x2000 rfl
    (fun _ _ _ => rfl) (fun _ _ _ => rfl)

/-- C6: for both chunk loops, a chunk call that fails (or, for reads,
transfers zero bytes) is the last call issued — the loop stops immediately —
and the returned byte count is exactly the sum of the counts moved by the
preceding calls, regardless of the remaining requested length; with a cached
handle the surrounding `read_kernel`/`write_kernel` return that loop result
unchanged (no error is raised). -/
theorem C6_partial_failure (rchunk : Nat → Nat → Nat → Nat × Nat)
    (wchunk : Nat → Nat → Nat → Nat) :
    (∀ fuel i a e R b tr k c, read_loop rchunk fuel i a e R = some (b, tr) →
      tr[k]? = some c → (c.ret != KERN_SUCCESS || c.actual == 0) = true →
      tr.length = k + 1 ∧ b = ((tr.take k).map ChunkCall.actual).sum) ∧
    (∀ fuel i a e R b tr k c, write_loop wchunk fuel i a e R = some (b, tr) →
      tr[k]? = some c → (c.ret != KERN_SUCCESS) = true →
      tr.length = k + 1 ∧ b = ((tr.take k).map WriteCall.req).sum) ∧
    (∀ kenv tst fuel addr L, tst.initialized = true →
      read_kernel kenv rchunk tst fuel addr L =
        (tst, read_loop rchunk fuel 0 addr (addr + L) L)) ∧
    (∀ kenv tst fuel addr L, tst.initialized = true →
      write_kernel kenv wchunk tst fuel addr L =
        (tst, write_loop wchunk fuel 0 addr (addr + L) L)) := by
  refine ⟨?_, ?_, ?_, ?_⟩
  · intro fuel
    induction fuel with
    | zero =>
      intro i a e R b tr k c h
      rw [read_loop.eq_def] at h
      simp at h
    | succ n ih =>
      intro i a e R b tr k c h hk hc
      rw [read_loop.eq_def] at h
      by_cases hlt : a < e
      · simp only [if_pos hlt] at h
        rcases hch : rchunk i a (clamp R) with ⟨ret, m⟩
        rw [hch] at h
        simp only at h
        by_cases hfail : (ret != KERN_SUCCESS || m == 0) = true
        · rw [if_pos hfail] at h
          simp only [Option.some.injEq, Prod.mk.injEq] at h
          obtain ⟨hb, htr⟩ := h
          subst hb; subst htr
          cases k with
          | zero =>
            simp only [List.getElem?_cons_zero, Option.some.injEq] at hk
            exact ⟨rfl, rfl⟩
          | succ j => simp at hk
        · rw [if_neg hfail] at h
          rcases hrec : read_loop rchunk n (i + 1) (a + m) e (R - m) with _ | p
          · rw [hrec] at h; exact absurd h (by simp)
          · rcases p with ⟨b1, t⟩
            rw [hrec] at h
            simp only [Option.some.injEq, Prod.mk.injEq] at h
            obtain ⟨hb, htr⟩ := h
            subst hb; subst htr
            cases k with
            | zero =>
              simp only [List.getElem?_cons_zero, Option.some.injEq] at hk
              subst hk
              exact absurd hc hfail
            | succ j =>
              simp only [List.getElem?_cons_succ] at hk
              obtain ⟨hlen, hsum⟩ := ih (i + 1) (a + m) e (R - m) b1 t j c hrec hk hc
              refine ⟨by simp [hlen], ?_⟩
              simp only [List.take_succ_cons, List.map_cons, List.sum_cons, hsum]
      · simp only [if_neg hlt, Option.some.injEq, Prod.mk.injEq] at h
        obtain ⟨_, htr⟩ := h
        subst htr
        simp at hk
  · intro fuel
    induction fuel with
    | zero =>
      intro i a e R b tr k c h
      rw [write_loop.eq_def] at h
      simp at h
    | succ n ih =>
      intro i a e R b tr k c h hk hc
      rw [write_loop.eq_def] at h
      by_cases hlt : a < e
      · simp only [if_pos hlt] at h
        by_cases hfail : (wchunk i a (clamp R) != KERN_SUCCESS) = true
        · rw [if_pos hfail] at h
          simp only [Option.some.injEq, Prod.mk.injEq] at h
          obtain ⟨hb, htr⟩ := h
          subst hb; subst htr
          cases k with
          | zero =>
            simp only [List.getElem?_cons_zero, Option.some.injEq] at hk
            exact ⟨rfl, rfl⟩
          | succ j => simp at hk
        · rw [if_neg hfail] at h
          rcases hrec : write_loop wchunk n (i + 1) (a + clamp R) e (R - clamp R)
            with _ | p
          · rw [hrec] at h; exact absurd h (by simp)
          · rcases p with ⟨b1, t⟩
            rw [hrec] at h
            simp only [Option.some.injEq, Prod.mk.injEq] at h
            obtain ⟨hb, htr⟩ := h
            subst hb; subst htr
            cases k with
            | zero =>
              simp only [List.getElem?_cons_zero, Option.some.injEq] at hk
              subst hk
              exact absurd hc hfail
            | succ j =>
              simp only [List.getElem?_cons_succ] at hk
              obtain ⟨hlen, hsum⟩ :=
                ih (i + 1) (a + clamp R) e (R - clamp R) b1 t j c hrec hk hc
              refine ⟨by simp [hlen], ?_⟩
              simp only [List.take_succ_cons, List.map_cons, List.sum_cons, hsum]
      · simp only [if_neg hlt, Option.some.injEq, Prod.mk.injEq] at h
        obtain ⟨_, htr⟩ := h
        subst htr
        simp at hk
  · intro kenv tst fuel addr L hinit
    have hts : get_kernel_task kenv tst =
        (tst, ⟨KERN_SUCCESS, some tst.kernel_task, 0⟩) := by
      simp [get_kernel_task, hinit]
    simp [read_kernel, hts]
  · intro kenv tst fuel addr L hinit
    have hts : get_kernel_task kenv tst =
        (tst, ⟨KERN_SUCCESS, some tst.kernel_task, 0⟩) := by
      simp [get_kernel_task, hinit]
    simp [write_kernel, hts]

/-- A `vm_read_overwrite` model whose first chunk succeeds in full and whose
second chunk fails. -/
def rchunkFailAt1 : Nat → Nat → Nat → Nat × Nat :=
  fun i _ s => if i = 0 then (KERN_SUCCESS, s) else (KERN_FAILURE, 0)

/-- A `vm_write` model whose first chunk succeeds and whose second fails. -/
def wchunkFailAt1 : Nat → Nat → Nat → Nat :=
  fun i _ _ => if i = 0 then KERN_SUCCESS else KERN_FAILURE

/-- Witness for C6: a 5000-byte read/write whose second chunk fails stops
after two calls and returns the 4095 bytes moved by the first chunk. -/
theorem C6_partial_failure_witness :
    (([⟨4095, KERN_SUCCESS, 4095⟩, ⟨905, KERN_FAILURE, 0⟩] :
        List ChunkCall).length = 1 + 1 ∧
      4095 = ((([⟨4095, KERN_SUCCESS, 4095⟩, ⟨905, KERN_FAILURE, 0⟩] :
        List ChunkCall).take 1).map ChunkCall.actual).sum) ∧
    (([⟨4095, KERN_SUCCESS⟩, ⟨905, KERN_FAILURE⟩] :
        List WriteCall).length = 1 + 1 ∧
      4095 = ((([⟨4095, KERN_SUCCESS⟩, ⟨905, KERN_FAILURE⟩] :
        List WriteCall).take 1).map WriteCall.req).sum) :=
  ⟨(C6_partial_failure rchunkFailAt1 wchunkFailAt1).1 3 0 0 5000 5000 4095
      [⟨4095, KERN_SUCCESS, 4095⟩, ⟨905, KERN_FAILURE, 0⟩] 1
      ⟨905, KERN_FAILURE, 0⟩ (by decide) (by decide) (by decide),
    (C6_partial_failure rchunkFailAt1 wchunkFailAt1).2.1 3 0 0 5000 5000 4095
      [⟨4095, KERN_SUCCESS⟩, ⟨905, KERN_FAILURE⟩] 1
      ⟨905, KERN_FAILURE⟩ (by decide) (by decide) (by decide)⟩

/-- C7: when handle acquisition fails up-front, both `read_kernel` and
`write_kernel` return `(vm_size_t)(-1) = 2 ^ 64 - 1` without issuing any
chunk call, and that sentinel is distinct from the byte count 0 of a transfer
that moved nothing. -/
theorem C7_sentinel_on_acquisition_failure (kenv : KernEnv)
    (rchunk : Nat → Nat → Nat → Nat × Nat) (wchunk : Nat → Nat → Nat → Nat)
    (tst : TaskCache) (fuel addr L : Nat)
    (hfail : (get_kernel_task kenv tst).2.ret ≠ KERN_SUCCESS) :
    (read_kernel kenv rchunk tst fuel addr L).2 = some (2 ^ 64 - 1, []) ∧
    (write_kernel kenv wchunk tst fuel addr L).2 = some (2 ^ 64 - 1, []) ∧
    (2 ^ 64 - 1 : Nat) ≠ 0 := by
  rcases hp : get_kernel_task kenv tst with ⟨tst1, tr⟩
  rw [hp] at hfail
  replace hfail : tr.ret ≠ KERN_SUCCESS := hfail
  refine ⟨?_, ?_, by decide⟩ <;>
    simp [read_kernel, write_kernel, hp, bne_iff_ne, hfail]

/-- Witness for C7: both acquisition strategies fail (`kenvFail`), so both
operations return the non-zero sentinel. -/
theorem C7_sentinel_on_acquisition_failure_witness :
    (read_kernel kenvFail rchunkFull ⟨0, false⟩ 1 0 100).2 =
      some (2 ^ 64 - 1, []) ∧
    (write_kernel kenvFail wchunkFull ⟨0, false⟩ 1 0 100).2 =
      some (2 ^ 64 - 1, []) ∧
    (2 ^ 64 - 1 : Nat) ≠ 0 :=
  C7_sentinel_on_acquisition_failure kenvFail rchunkFull wchunkFull ⟨0, false⟩
    1 0 100 (by decide)

/-- C8: after a first successful call, `get_kernel_task` and
`get_kernel_base` are cached: a repeated call returns the identical value,
leaves the state unchanged, and issues zero collaborator calls (no
acquisition syscalls, no region enumerations, no header reads). -/
theorem C8_cached_after_success :
    (∀ kenv st st1 res, get_kernel_task kenv st = (st1, res) →
      res.ret = KERN_SUCCESS →
      get_kernel_task kenv st1 = (st1, ⟨KERN_SUCCESS, res.task, 0⟩)) ∧
    (∀ kenv benv rf hf tst bst tst1 bst1 v c,
      get_kernel_base kenv benv rf hf tst bst = some (tst1, bst1, v, c) →
      bst1.initialized = true →
      get_kernel_base kenv benv rf hf tst1 bst1 = some (tst1, bst1, v, 0)) := by
  constructor
  · intro kenv st st1 res h hret
    by_cases hi : st.initialized
    · rw [get_kernel_task, if_pos hi] at h
      simp only [Prod.mk.injEq] at h
      obtain ⟨h1, h2⟩ := h
      subst h1; subst h2
      rw [get_kernel_task, if_pos hi]
    · simp only [get_kernel_task, if_neg hi] at h
      split at h
      · split at h
        · next hcond2 =>
          simp only [Prod.mk.injEq] at h
          obtain ⟨h1, h2⟩ := h
          subst h1; subst h2
          simp only [bne_iff_ne, ne_eq] at hcond2
          exact absurd hret hcond2
        · simp only [Prod.mk.injEq] at h
          obtain ⟨h1, h2⟩ := h
          subst h1; subst h2
          rw [get_kernel_task]
          simp
      · simp only [Prod.mk.injEq] at h
        obtain ⟨h1, h2⟩ := h
        subst h1; subst h2
        rw [get_kernel_task]
        simp
  · intro kenv benv rf hf tst bst tst1 bst1 v c h hinit
    by_cases hb : bst.initialized
    · rw [get_kernel_base, if_pos hb] at h
      simp only [Option.some.injEq, Prod.mk.injEq] at h
      obtain ⟨h1, h2, h3, h4⟩ := h
      subst h1; subst h2; subst h3
      rw [get_kernel_base, if_pos hb]
    · rw [get_kernel_base, if_neg hb] at h
      rcases hp : get_kernel_task kenv tst with ⟨tst2, tr⟩
      rw [hp] at h
      simp only at h
      by_cases hret : (tr.ret != KERN_SUCCESS) = true
      · rw [if_pos hret] at h
        simp only [Option.some.injEq, Prod.mk.injEq] at h
        obtain ⟨h1, h2, h3, h4⟩ := h
        subst h2
        exact absurd hinit (by simpa using hb)
      · rw [if_neg hret] at h
        rcases hs : scan_regions benv rf hf 0 with _ | p
        · rw [hs] at h
          exact absurd h (by simp)
        · rcases p with ⟨r, cc⟩
          rw [hs] at h
          rcases r with _ | a
          · simp only [Option.some.injEq, Prod.mk.injEq] at h
            obtain ⟨h1, h2, h3, h4⟩ := h
            subst h2
            exact absurd hinit (by simpa using hb)
          · simp only [Option.some.injEq, Prod.mk.injEq] at h
            obtain ⟨h1, h2, h3, h4⟩ := h
            subst h1; subst h2; subst h3
            rw [get_kernel_base]
            simp

/-- Witness for C8: a successful first acquisition caches port `0x103`; the
repeated call returns it with zero syscalls.  A successful first base
location caches `0x10002000`; the repeated call returns it with zero
collaborator calls. -/
theorem C8_cached_after_success_witness :
    get_kernel_task kenvOk ⟨0x103, true⟩ =
      (⟨0x103, true⟩, ⟨KERN_SUCCESS, some 0x103, 0⟩) ∧
    get_kernel_base kenvOk envSecondOffset 1 1 ⟨0x103, true⟩ ⟨0x10002000, true⟩ =
      some (⟨0x103, true⟩, ⟨0x10002000, true⟩, 0x10002000, 0) :=
  ⟨C8_cached_after_success.1 kenvOk ⟨0, false⟩ ⟨0x103, true⟩
      ⟨KERN_SUCCESS, some 0x103, 1⟩ (by decide) rfl,
    C8_cached_after_success.2 kenvOk envSecondOffset 1 1 ⟨0, false⟩ ⟨0, false⟩
      ⟨0x103, true⟩ ⟨0x10002000, true⟩ 0x10002000 4 (by decide) rfl⟩

/-- `memmem(hay, hayLen, needle, needleLen)` as used by `find_bytes_kern`:
the local offset of the first occurrence of `needle` in `hay`, `none` when
absent (and `some 0` for an empty needle, as in glibc). -/
def memmem (hay needle : List Nat) : Option Nat :=
  match hay with
  | [] => if needle.isPrefixOf [] then some 0 else none
  | a :: t =>
    if needle.isPrefixOf (a :: t) then some 0
    else Option.map (fun k => k + 1) (memmem t needle)

/-- `memmem` finds the smallest offset at which the needle occurs. -/
lemma memmem_of_least (hay needle : List Nat) (k : Nat)
    (hk : needle.isPrefixOf (hay.drop k) = true)
    (hmin : ∀ j, j < k → needle.isPrefixOf (hay.drop j) = false) :
    memmem hay needle = some k := by
  induction hay generalizing k with
  | nil =>
    cases k with
    | zero =>
      simp only [List.drop_zero] at hk
      simp [memmem, hk]
    | succ j =>
      have h0 := hmin 0 (Nat.succ_pos j)
      simp only [List.drop_nil, List.drop_zero] at h0 hk
      rw [h0] at hk
      exact absurd hk (by simp)
  | cons a t ih =>
    cases k with
    | zero =>
      simp only [List.drop_zero] at hk
      simp [memmem, hk]
    | succ j =>
      have h0 := hmin 0 (Nat.succ_pos j)
      simp only [List.drop_zero] at h0
      simp only [memmem, h0, Bool.false_eq_true, if_false]
      rw [ih j (by simpa using hk)
        (fun j1 hj1 => by simpa using hmin (j1 + 1) (by omega))]
      rfl

/-- `memmem` reports `none` when the needle occurs nowhere. -/
lemma memmem_of_absent (hay needle : List Nat)
    (h : ∀ j, needle.isPrefixOf (hay.drop j) = false) :
    memmem hay needle = none := by
  induction hay with
  | nil =>
    have h0 := h 0
    simp only [List.drop_zero] at h0
    simp [memmem, h0]
  | cons a t ih =>
    have h0 := h 0
    simp only [List.drop_zero] at h0
    simp only [memmem, h0, Bool.false_eq_true, if_false]
    rw [ih (fun j => by simpa using h (j + 1))]
    rfl

/-- `find_bytes_kern`, `libkern.c` lines 287-305.  `mallocOk` models whether
`malloc(end - start)` succeeded.  The data flow from the transfer primitive
into the buffer is opaque in this embedding, so `buf` is a parameter giving
the buffer contents after the `read_kernel` call; the read outcome itself is
computed by `read_kernel`.  The result mirrors the C return value `ret`
(`0` for NotFound), wrapped in `Option` only for the loop-fuel bound. -/
def find_bytes_kern (kenv : KernEnv) (chunk : Nat → Nat → Nat → Nat × Nat)
    (tst : TaskCache) (fuel : Nat) (mallocOk : Bool) (buf : List Nat)
    (start end_ : Nat) (bytes : List Nat) : Option Nat :=
  if mallocOk then
    match (read_kernel kenv chunk tst fuel start (end_ - start)).2 with
    | none => none
    | some (b, _) =>
      if b != 0 then
        match memmem buf bytes with
        | some k => some (start + k)
        | none => some 0
      else
        some 0
  else
    some 0

/-- C9: `find_bytes_kern` returns NotFound (0) when the buffer allocation
fails; NotFound when the read moved zero bytes; `start + k` when the read
moved a non-zero count and the pattern occurs in the buffer at smallest
local offset `k`; and NotFound when the pattern is absent from the buffer. -/
theorem C9_find_bytes_kern (kenv : KernEnv)
    (chunk : Nat → Nat → Nat → Nat × Nat) (tst : TaskCache)
    (fuel start end_ : Nat) (buf bytes : List Nat) :
    (find_bytes_kern kenv chunk tst fuel false buf start end_ bytes =
      some 0) ∧
    (∀ tr, (read_kernel kenv chunk tst fuel start (end_ - start)).2 =
        some (0, tr) →
      find_bytes_kern kenv chunk tst fuel true buf start end_ bytes =
        some 0) ∧
    (∀ b tr k, (read_kernel kenv chunk tst fuel start (end_ - start)).2 =
        some (b, tr) → b ≠ 0 →
      bytes.isPrefixOf (buf.drop k) = true →
      (∀ j, j < k → bytes.isPrefixOf (buf.drop j) = false) →
      find_bytes_kern kenv chunk tst fuel true buf start end_ bytes =
        some (start + k)) ∧
    (∀ b tr, (read_kernel kenv chunk tst fuel start (end_ - start)).2 =
        some (b, tr) → b ≠ 0 →
      (∀ j, bytes.isPrefixOf (buf.drop j) = false) →
      find_bytes_kern kenv chunk tst fuel true buf start end_ bytes =
        some 0) := by
  refine ⟨by simp [find_bytes_kern], ?_, ?_, ?_⟩
  · intro tr h
    simp [find_bytes_kern, h]
  · intro b tr k h hb hk hmin
    simp [find_bytes_kern, h, bne_iff_ne, hb, memmem_of_least buf bytes k hk hmin]
  · intro b tr h hb habs
    simp [find_bytes_kern, h, bne_iff_ne, hb, memmem_of_absent buf bytes habs]

/-- Witness for C9: with a cached handle and a fully successful 4-byte read,
searching `[1, 2, 3, 4]` for `[3, 4]` returns `100 + 2`; searching for the
absent `[5]` returns 0; a zero-byte read returns 0; a failed allocation
returns 0. -/
theorem C9_find_bytes_kern_witness :
    find_bytes_kern kenvOk rchunkFull tstOk 5 false [1, 2, 3, 4] 100 104
        [3, 4] = some 0 ∧
    find_bytes_kern kenvOk (fun _ _ _ => (KERN_SUCCESS, 0)) tstOk 5 true
        [1, 2, 3, 4] 100 104 [3, 4] = some 0 ∧
    find_bytes_kern kenvOk rchunkFull tstOk 5 true [1, 2, 3, 4] 100 104
        [3, 4] = some (100 + 2) ∧
    find_bytes_kern kenvOk rchunkFull tstOk 5 true [1, 2, 3, 4] 100 104
        [5] = some 0 :=
  ⟨(C9_find_bytes_kern kenvOk rchunkFull tstOk 5 100 104 [1, 2, 3, 4]
      [3, 4]).1,
    (C9_find_bytes_kern kenvOk (fun _ _ _ => (KERN_SUCCESS, 0)) tstOk 5 100 104
      [1, 2, 3, 4] [3, 4]).2.1 [⟨4, KERN_SUCCESS, 0⟩] (by decide),
    (C9_find_bytes_kern kenvOk rchunkFull tstOk 5 100 104 [1, 2, 3, 4]
      [3, 4]).2.2.1 4 [⟨4, KERN_SUCCESS, 4⟩] 2 (by decide) (by decide)
      (by decide) (by decide),
    (C9_find_bytes_kern kenvOk rchunkFull tstOk 5 100 104 [1, 2, 3, 4]
      [5]).2.2.2 4 [⟨4, KERN_SUCCESS, 4⟩] (by decide) (by decide)
      (by
        intro j
        rcases Nat.lt_or_ge j 4 with hj | hj
        · interval_cases j <;> decide
        · rw [List.drop_eq_nil_of_le (by simpa using hj)]
          decide)⟩

/-- C10 (implicit): `find_bytes_kern` distinguishes read outcomes only by
zero versus non-zero, and `read_kernel`'s could-not-start sentinel
`(vm_size_t)(-1) = 2 ^ 64 - 1` is non-zero; so when handle acquisition
fails, `find_bytes_kern` does not take the NotFound-on-zero-read path but
proceeds to run `memmem` over the buffer, whose contents were never filled
by a successful read. -/
theorem C10_sentinel_defeats_zero_check (kenv : KernEnv)
    (chunk : Nat → Nat → Nat → Nat × Nat) (tst : TaskCache)
    (fuel start end_ : Nat) (buf bytes : List Nat)
    (hfail : (get_kernel_task kenv tst).2.ret ≠ KERN_SUCCESS) :
    (read_kernel kenv chunk tst fuel start (end_ - start)).2 =
      some (2 ^ 64 - 1, []) ∧
    (2 ^ 64 - 1 : Nat) ≠ 0 ∧
    find_bytes_kern kenv chunk tst fuel true buf start end_ bytes =
      some (match memmem buf bytes with
            | some k => start + k
            | none => 0) := by
  rcases hp : get_kernel_task kenv tst with ⟨tst1, tr⟩
  rw [hp] at hfail
  replace hfail : tr.ret ≠ KERN_SUCCESS := hfail
  have hread : (read_kernel kenv chunk tst fuel start (end_ - start)).2 =
      some (2 ^ 64 - 1, []) := by
    simp [read_kernel, hp, bne_iff_ne, hfail]
  refine ⟨hread, by decide, ?_⟩
  simp only [find_bytes_kern, if_pos rfl, hread]
  have hnz : ((2 ^ 64 - 1 : Nat) != 0) = true := by decide
  rw [hnz]
  simp only [if_true]
  rcases memmem buf bytes with _ | k <;> rfl

/-- Witness for C10: with both acquisition strategies failing, searching a
never-filled 3-byte buffer `[9, 9, 7]` for `[7]` still runs the search and
returns `50 + 2` — not the NotFound of the zero-read path. -/
theorem C10_sentinel_defeats_zero_check_witness :
    (read_kernel kenvFail rchunkFull ⟨0, false⟩ 1 50 (53 - 50)).2 =
      some (2 ^ 64 - 1, []) ∧
    (2 ^ 64 - 1 : Nat) ≠ 0 ∧
    find_bytes_kern kenvFail rchunkFull ⟨0, false⟩ 1 true [9, 9, 7] 50 53
        [7] =
      some (match memmem [9, 9, 7] [7] with
            | some k => 50 + k
            | none => 0) :=
  C10_sentinel_defeats_zero_check kenvFail rchunkFull ⟨0, false⟩ 1 50 53
    [9, 9, 7] [7] (by decide)

end Libkern
